import Mathlib

/-!
# Verification of `neurokit2/microstates/microstates_segment.py`

A shallow embedding of the microstate segmentation module.  Signals are
rational-valued; the full signal matrix (numpy shape `(channels, time)`) is
represented time-major, as the list of its per-timepoint channel vectors,
which is exactly the orientation (`data.T`) handed to the quality scorer.
The external collaborators that are not part of the sources here
(`cluster`, `microstates_classify`, `_cluster_quality_gev`, the numpy
Mersenne-Twister stream) are either taken as opaque function parameters or
modelled from the spec, as flagged in the corresponding doc comments.
-/

set_option autoImplicit false

namespace Microstates

/-- 1-d dot product (`np.dot` on vectors); excess entries of the longer
vector are ignored, matching equal-length use at every call site. -/
def dot (x y : List ℚ) : ℚ := (List.zipWith (fun a b => a * b) x y).sum

/-- `np.sign` on one scalar: `1` for positive, `-1` for negative, `0` for zero. -/
def npsign (x : ℚ) : ℚ := if 0 < x then 1 else if x < 0 then -1 else 0

/-- The largest absolute value in a column (`np.max(np.abs(xs))`, seeded by 0;
all compared values are nonnegative, so the seed never wins on a
nonempty column). -/
def maxAbs (xs : List ℚ) : ℚ := (xs.map (fun v => |v|)).foldr max 0

/-- Index of the first occurrence of `v` in `l` (`np.argmax` returns the
first maximal index). -/
def firstIdxEq (v : ℚ) : List ℚ → Nat
  | [] => 0
  | x :: rest => if x = v then 0 else firstIdxEq v rest + 1

/-- `np.argmax(np.abs(xs))`: index of the first entry of maximal absolute value. -/
def argmaxAbs (xs : List ℚ) : Nat := firstIdxEq (maxAbs xs) (xs.map (fun v => |v|))

/-- One column of the activation matrix `microstates.dot(data)`: the dot
product of every centroid row with the signal at one timepoint. -/
def activationAt (microstates : List (List ℚ)) (col : List ℚ) : List ℚ :=
  microstates.map (fun c => dot c col)

/-- Mean of a vector (division by a zero length yields the junk value 0 in ℚ). -/
def mean (x : List ℚ) : ℚ := x.sum / (x.length : ℚ)

/-- The vector recentered to mean zero. -/
def centered (x : List ℚ) : List ℚ := x.map (fun v => v - mean x)

/-- Unnormalized covariance of two vectors after centering. -/
def covC (x y : List ℚ) : ℚ := dot (centered x) (centered y)

/-- Modelled from the spec: the Quality Scorer's squared correlation between a
timepoint's channel vector and its assigned centroid (`_cluster_quality_gev`
is not among the sources here).  The square of the Pearson correlation is
written without square roots as `cov² / (var·var)`, with the junk value 0
when either vector is constant. -/
def corrSq (x y : List ℚ) : ℚ :=
  let d := covC x x * covC y y
  if d = 0 then 0 else covC x y * covC x y / d

/-- Modelled from the spec: the Quality Scorer `_cluster_quality_gev(data.T,
microstates, segmentation, sd=gfp)` is not among the sources here; per spec
§4.1 step 4 it is, "for each timepoint, squared correlation between the
signal and its assigned centroid, weighted by w, summed and normalized by
total weighted signal variance": `Σ_t w_t² · corr²(data_t, C[label_t]) / Σ_t w_t²`,
with the junk value 0 when the total weight is zero. -/
def gevCalc (dataT microstates : List (List ℚ)) (seg : List Nat) (gfp : List ℚ) : ℚ :=
  let den := (gfp.map (fun w => w * w)).sum
  let num := ((dataT.zip (seg.zip gfp)).map
      (fun p => p.2.2 * p.2.2 * corrSq p.1 (microstates.getD p.2.1 []))).sum
  if den = 0 then 0 else num / den

/-- Output of `_microstates_segment_runsegmentation`: the tuple
`(segmentation, polarity, gev)`. -/
structure SegOut where
  segmentation : List Nat
  polarity : List ℚ
  gev : ℚ
  deriving Repr, DecidableEq

/-- `_microstates_segment_runsegmentation(data, microstates, gfp)`:
`activation = microstates.dot(data)`;
`segmentation = np.argmax(np.abs(activation), axis=0)`;
`polarity = np.sign(np.choose(segmentation, activation))` (the activation
value at the chosen row of each column);
`gev = _cluster_quality_gev(data.T, microstates, segmentation, sd=gfp)`. -/
def runsegmentation (dataT microstates : List (List ℚ)) (gfp : List ℚ) : SegOut :=
  let acts := dataT.map (activationAt microstates)
  let seg := acts.map argmaxAbs
  { segmentation := seg,
    polarity := acts.map (fun a => npsign (a.getD (argmaxAbs a) 0)),
    gev := gevCalc dataT microstates seg gfp }

end Microstates

namespace Microstates

/-! ### Helper lemmas: folds, first-index search, `getD` -/

lemma le_foldr_max (l : List ℚ) (a : ℚ) : ∀ y ∈ l, y ≤ l.foldr max a := by
  induction l with
  | nil => intro y hy; cases hy
  | cons x rest ih =>
    intro y hy
    rcases List.mem_cons.1 hy with h | h
    · subst h; exact le_max_left _ _
    · exact le_trans (ih y h) (le_max_right _ _)

lemma seed_le_foldr_max (l : List ℚ) (a : ℚ) : a ≤ l.foldr max a := by
  induction l with
  | nil => exact le_refl a
  | cons x rest ih => exact le_trans ih (le_max_right _ _)

lemma foldr_max_mem (l : List ℚ) (a : ℚ) : l.foldr max a = a ∨ l.foldr max a ∈ l := by
  induction l with
  | nil => exact Or.inl rfl
  | cons x rest ih =>
    rcases max_choice x (rest.foldr max a) with h | h
    · right; rw [List.foldr_cons, h]; exact List.mem_cons_self x rest
    · rcases ih with h2 | h2
      · left; rw [List.foldr_cons, h, h2]
      · right; rw [List.foldr_cons, h]; exact List.mem_cons_of_mem x h2

lemma firstIdxEq_lt_length {v : ℚ} : ∀ {l : List ℚ}, v ∈ l → firstIdxEq v l < l.length := by
  intro l
  induction l with
  | nil => intro h; cases h
  | cons x rest ih =>
    intro h
    by_cases hx : x = v
    · simp [firstIdxEq, hx]
    · have hv : v ∈ rest := by
        rcases List.mem_cons.1 h with h' | h'
        · exact absurd h'.symm hx
        · exact h'
      simp only [firstIdxEq, if_neg hx, List.length_cons]
      exact Nat.succ_lt_succ (ih hv)

lemma getD_firstIdxEq {v : ℚ} (d : ℚ) : ∀ {l : List ℚ}, v ∈ l → l.getD (firstIdxEq v l) d = v := by
  intro l
  induction l with
  | nil => intro h; cases h
  | cons x rest ih =>
    intro h
    by_cases hx : x = v
    · simp [firstIdxEq, hx]
    · have hv : v ∈ rest := by
        rcases List.mem_cons.1 h with h' | h'
        · exact absurd h'.symm hx
        · exact h'
      simp only [firstIdxEq, if_neg hx, List.getD_cons_succ]
      exact ih hv

lemma getD_map_abs : ∀ (xs : List ℚ) (j : Nat), (xs.map (fun v => |v|)).getD j 0 = |xs.getD j 0| := by
  intro xs
  induction xs with
  | nil => intro j; simp
  | cons x rest ih =>
    intro j
    cases j with
    | zero => rfl
    | succ j => simpa using ih j

lemma getD_mem_of_lt {α : Type} : ∀ (l : List α) (j : Nat) (d : α), j < l.length → l.getD j d ∈ l := by
  intro l
  induction l with
  | nil => intro j d h; exact absurd h (Nat.not_lt_zero j)
  | cons x rest ih =>
    intro j d h
    cases j with
    | zero => exact List.mem_cons_self x rest
    | succ j => exact List.mem_cons_of_mem x (ih j d (Nat.lt_of_succ_lt_succ h))

lemma getD_map_of_lt {α β : Type} (f : α → β) (d : β) (d' : α) :
    ∀ (l : List α) (j : Nat), j < l.length → (l.map f).getD j d = f (l.getD j d') := by
  intro l
  induction l with
  | nil => intro j h; exact absurd h (Nat.not_lt_zero j)
  | cons x rest ih =>
    intro j h
    cases j with
    | zero => rfl
    | succ j => exact ih j (Nat.lt_of_succ_lt_succ h)

/-! ### Properties of `maxAbs` and `argmaxAbs` -/

lemma maxAbs_nonneg (xs : List ℚ) : 0 ≤ maxAbs xs := seed_le_foldr_max _ 0

lemma abs_getD_le_maxAbs (xs : List ℚ) (j : Nat) : |xs.getD j 0| ≤ maxAbs xs := by
  by_cases hj : j < xs.length
  · have hmem : |xs.getD j 0| ∈ xs.map (fun v => |v|) := by
      rw [← getD_map_abs]
      exact getD_mem_of_lt _ j 0 (by simpa using hj)
    exact le_foldr_max _ _ _ hmem
  · rw [List.getD_eq_default _ _ (Nat.le_of_not_lt hj)]
    simpa using maxAbs_nonneg xs

lemma maxAbs_mem (xs : List ℚ) (h : xs ≠ []) : maxAbs xs ∈ xs.map (fun v => |v|) := by
  rcases foldr_max_mem (xs.map (fun v => |v|)) 0 with h0 | hmem
  · obtain ⟨x, rest, rfl⟩ := List.exists_cons_of_ne_nil h
    have h1 : |x| ≤ maxAbs (x :: rest) :=
      le_foldr_max _ _ _ (by simp)
    have h3 : maxAbs (x :: rest) = 0 := h0
    have h4 : |x| = maxAbs (x :: rest) :=
      le_antisymm h1 (by rw [h3]; exact abs_nonneg x)
    rw [← h4]
    simp
  · exact hmem

lemma argmaxAbs_lt_length (xs : List ℚ) (h : xs ≠ []) : argmaxAbs xs < xs.length := by
  have := firstIdxEq_lt_length (maxAbs_mem xs h)
  simpa [argmaxAbs] using this

lemma abs_getD_argmaxAbs (xs : List ℚ) (h : xs ≠ []) :
    |xs.getD (argmaxAbs xs) 0| = maxAbs xs := by
  have h2 := getD_firstIdxEq 0 (maxAbs_mem xs h)
  rw [getD_map_abs] at h2
  exact h2

end Microstates

namespace Microstates

/-! ### Entrywise description of `runsegmentation` -/

lemma seg_getD (dataT microstates : List (List ℚ)) (gfp : List ℚ) (t : Nat)
    (ht : t < dataT.length) :
    (runsegmentation dataT microstates gfp).segmentation.getD t 0 =
      argmaxAbs (activationAt microstates (dataT.getD t [])) := by
  simp only [runsegmentation]
  rw [getD_map_of_lt argmaxAbs 0 [] _ t (by simpa using ht)]
  rw [getD_map_of_lt (activationAt microstates) [] [] dataT t ht]

lemma pol_getD (dataT microstates : List (List ℚ)) (gfp : List ℚ) (t : Nat)
    (ht : t < dataT.length) :
    (runsegmentation dataT microstates gfp).polarity.getD t 0 =
      npsign ((activationAt microstates (dataT.getD t [])).getD
        (argmaxAbs (activationAt microstates (dataT.getD t []))) 0) := by
  simp only [runsegmentation]
  rw [getD_map_of_lt (fun a => npsign (a.getD (argmaxAbs a) 0)) 0 [] _ t (by simpa using ht)]
  rw [getD_map_of_lt (activationAt microstates) [] [] dataT t ht]

/-- Claim C1: for every signal matrix, centroid set and weight vector, Run
Segmentation assigns each timepoint a label whose centroid maximizes the
absolute activation at that timepoint, and the polarity there is the sign of
the signed activation value at the chosen label. -/
theorem C1_label_maximizes_and_polarity_is_sign
    (dataT microstates : List (List ℚ)) (gfp : List ℚ) (t : Nat)
    (ht : t < dataT.length) (hk : microstates ≠ []) :
    (∀ j, |(activationAt microstates (dataT.getD t [])).getD j 0| ≤
        |(activationAt microstates (dataT.getD t [])).getD
          ((runsegmentation dataT microstates gfp).segmentation.getD t 0) 0|) ∧
    (runsegmentation dataT microstates gfp).polarity.getD t 0 =
      npsign ((activationAt microstates (dataT.getD t [])).getD
        ((runsegmentation dataT microstates gfp).segmentation.getD t 0) 0) := by
  have hne : activationAt microstates (dataT.getD t []) ≠ [] := by
    simpa [activationAt] using hk
  rw [seg_getD dataT microstates gfp t ht]
  constructor
  · intro j
    rw [abs_getD_argmaxAbs _ hne]
    exact abs_getD_le_maxAbs _ j
  · exact pol_getD dataT microstates gfp t ht

/-- Witness for C1 at a concrete input: one timepoint with column (3, 4) and
the two unit centroids. -/
theorem C1_witness :
    (∀ j, |(activationAt [[1, 0], [0, 1]] ([[3, 4]].getD 0 [])).getD j 0| ≤
        |(activationAt [[1, 0], [0, 1]] ([[3, 4]].getD 0 [])).getD
          ((runsegmentation [[3, 4]] [[1, 0], [0, 1]] [1]).segmentation.getD 0 0) 0|) ∧
    (runsegmentation [[3, 4]] [[1, 0], [0, 1]] [1]).polarity.getD 0 0 =
      npsign ((activationAt [[1, 0], [0, 1]] ([[3, 4]].getD 0 [])).getD
        ((runsegmentation [[3, 4]] [[1, 0], [0, 1]] [1]).segmentation.getD 0 0) 0) :=
  C1_label_maximizes_and_polarity_is_sign [[3, 4]] [[1, 0], [0, 1]] [1] 0
    (by decide) (by decide)

/-- Claim C5: the label sequence has one entry per timepoint of the full
signal, and every label is a valid row index into the centroid set. -/
theorem C5_length_and_label_range (dataT microstates : List (List ℚ)) (gfp : List ℚ)
    (hk : microstates ≠ []) :
    (runsegmentation dataT microstates gfp).segmentation.length = dataT.length ∧
    ∀ l ∈ (runsegmentation dataT microstates gfp).segmentation, l < microstates.length := by
  constructor
  · simp [runsegmentation]
  · intro l hl
    simp only [runsegmentation] at hl
    rw [List.mem_map] at hl
    obtain ⟨a, ha, rfl⟩ := hl
    rw [List.mem_map] at ha
    obtain ⟨col, hcol, rfl⟩ := ha
    have hne : activationAt microstates col ≠ [] := by
      simpa [activationAt] using hk
    have := argmaxAbs_lt_length _ hne
    simpa [activationAt] using this

/-- Witness for C5 at a concrete input. -/
theorem C5_witness :
    (runsegmentation [[3, 4], [5, 6]] [[1, 0], [0, 1]] [1, 1]).segmentation.length =
      ([[3, 4], [5, 6]] : List (List ℚ)).length ∧
    ∀ l ∈ (runsegmentation [[3, 4], [5, 6]] [[1, 0], [0, 1]] [1, 1]).segmentation,
      l < ([[1, 0], [0, 1]] : List (List ℚ)).length :=
  C5_length_and_label_range [[3, 4], [5, 6]] [[1, 0], [0, 1]] [1, 1] (by decide)

/-- Claim C6 fails on the code: `np.sign` yields 0 at a zero activation, so a
polarity entry need not be in {-1, +1}.  With the one-channel zero signal
`[[0]]` and centroid set `[[1]]` the single polarity entry is 0. -/
theorem C6_counterexample :
    ¬ (∀ p ∈ (runsegmentation [[0]] [[1]] [1]).polarity, p = 1 ∨ p = -1) := by
  have hpol : (runsegmentation [[0]] [[1]] [1]).polarity = [(0 : ℚ)] := by
    norm_num [runsegmentation, activationAt, dot, argmaxAbs, maxAbs, firstIdxEq, npsign]
  intro h
  have h0 := h 0 (by rw [hpol]; exact List.mem_singleton.2 rfl)
  rcases h0 with h0 | h0 <;> norm_num at h0

/-- Claim C6 amended: every polarity entry is the sign of the chosen
activation value, hence one of 1, 0 or -1; it is 0 exactly when the
activation at the chosen label is zero. -/
theorem C6_amended_polarity_is_sign_value (dataT microstates : List (List ℚ)) (gfp : List ℚ) :
    ∀ p ∈ (runsegmentation dataT microstates gfp).polarity, p = 1 ∨ p = 0 ∨ p = -1 := by
  intro p hp
  simp only [runsegmentation] at hp
  rw [List.mem_map] at hp
  obtain ⟨a, ha, rfl⟩ := hp
  rcases lt_trichotomy 0 (a.getD (argmaxAbs a) 0) with h1 | h1 | h1
  · refine Or.inl ?_
    simp only [npsign]
    rw [if_pos h1]
  · refine Or.inr (Or.inl ?_)
    have hx : a.getD (argmaxAbs a) 0 = 0 := h1.symm
    simp only [npsign, hx]
    norm_num
  · refine Or.inr (Or.inr ?_)
    simp only [npsign]
    rw [if_neg (lt_asymm h1), if_pos h1]

end Microstates

namespace Microstates

/-! ### Sign-flip algebra for claim C9 -/

lemma dot_neg_left : ∀ (x y : List ℚ), dot (x.map (fun v => -v)) y = -(dot x y) := by
  intro x
  induction x with
  | nil => intro y; simp [dot]
  | cons a x ih =>
    intro y
    cases y with
    | nil => simp [dot]
    | cons b y =>
      simp only [List.map_cons, dot, List.zipWith_cons_cons, List.sum_cons]
      have h := ih y
      simp only [dot] at h
      rw [h]
      ring

lemma dot_neg_right : ∀ (x y : List ℚ), dot x (y.map (fun v => -v)) = -(dot x y) := by
  intro x
  induction x with
  | nil => intro y; simp [dot]
  | cons a x ih =>
    intro y
    cases y with
    | nil => simp [dot]
    | cons b y =>
      simp only [List.map_cons, dot, List.zipWith_cons_cons, List.sum_cons]
      have h := ih y
      simp only [dot] at h
      rw [h]
      ring

lemma sum_map_neg (x : List ℚ) : (x.map (fun v => -v)).sum = -(x.sum) := by
  induction x with
  | nil => simp
  | cons a x ih => simp only [List.map_cons, List.sum_cons, ih]; ring

lemma mean_neg (x : List ℚ) : mean (x.map (fun v => -v)) = -mean x := by
  simp [mean, sum_map_neg, neg_div]

lemma centered_neg (x : List ℚ) :
    centered (x.map (fun v => -v)) = (centered x).map (fun v => -v) := by
  simp only [centered, mean_neg, List.map_map]
  rw [show ((fun v : ℚ => v - -mean x) ∘ fun v : ℚ => -v) =
      ((fun v : ℚ => -v) ∘ fun v : ℚ => v - mean x) from funext fun v => by simp; ring]

lemma covC_neg_right (x y : List ℚ) : covC x (y.map (fun v => -v)) = -covC x y := by
  rw [covC, centered_neg, dot_neg_right, covC]

lemma covC_neg_neg (y : List ℚ) :
    covC (y.map (fun v => -v)) (y.map (fun v => -v)) = covC y y := by
  rw [covC, centered_neg, dot_neg_left, dot_neg_right, neg_neg, covC]

lemma corrSq_neg_right (x y : List ℚ) : corrSq x (y.map (fun v => -v)) = corrSq x y := by
  simp only [corrSq]
  rw [covC_neg_neg, covC_neg_right, neg_mul_neg]

lemma npsign_neg (x : ℚ) : npsign (-x) = -npsign x := by
  rcases lt_trichotomy 0 x with h | h | h
  · simp only [npsign]
    rw [if_neg (by linarith : ¬ (0:ℚ) < -x), if_pos (by linarith : -x < (0:ℚ)), if_pos h]
  · rw [← h]
    norm_num [npsign]
  · simp only [npsign]
    rw [if_pos (by linarith : (0:ℚ) < -x), if_neg (by linarith : ¬ (0:ℚ) < x), if_pos h]
    norm_num

/-! ### `List.set` interaction with `getD` and `map` -/

lemma getD_set_self {α : Type} : ∀ (l : List α) (j : Nat) (a d : α), j < l.length →
    (l.set j a).getD j d = a := by
  intro l
  induction l with
  | nil => intro j a d h; exact absurd h (Nat.not_lt_zero j)
  | cons x rest ih =>
    intro j a d h
    cases j with
    | zero => rfl
    | succ j => exact ih j a d (Nat.lt_of_succ_lt_succ h)

lemma getD_set_ne {α : Type} : ∀ (l : List α) (j t : Nat) (a d : α), t ≠ j →
    (l.set j a).getD t d = l.getD t d := by
  intro l
  induction l with
  | nil => intro j t a d h; rfl
  | cons x rest ih =>
    intro j t a d h
    cases j with
    | zero =>
      cases t with
      | zero => exact absurd rfl h
      | succ t => rfl
    | succ j =>
      cases t with
      | zero => rfl
      | succ t => exact ih j t a d (fun he => h (congrArg Nat.succ he))

lemma set_getD_self {α : Type} : ∀ (l : List α) (j : Nat) (d : α), j < l.length →
    l.set j (l.getD j d) = l := by
  intro l
  induction l with
  | nil => intro j d h; exact absurd h (Nat.not_lt_zero j)
  | cons x rest ih =>
    intro j d h
    cases j with
    | zero => rfl
    | succ j =>
      show x :: rest.set j (rest.getD j d) = x :: rest
      rw [ih j d (Nat.lt_of_succ_lt_succ h)]

lemma map_set {α β : Type} (f : α → β) : ∀ (l : List α) (j : Nat) (a : α),
    (l.set j a).map f = (l.map f).set j (f a) := by
  intro l
  induction l with
  | nil => intro j a; rfl
  | cons x rest ih =>
    intro j a
    cases j with
    | zero => rfl
    | succ j =>
      show f x :: (rest.set j a).map f = f x :: (rest.map f).set j (f a)
      rw [ih j a]

end Microstates

namespace Microstates

/-- The centroid set with row `j` replaced by its sign-negation. -/
def flipRow (j : Nat) (C : List (List ℚ)) : List (List ℚ) :=
  C.set j ((C.getD j []).map (fun v => -v))

lemma activationAt_flipRow (C : List (List ℚ)) (col : List ℚ) (j : Nat) :
    activationAt (flipRow j C) col =
      (activationAt C col).set j (-(dot (C.getD j []) col)) := by
  rw [activationAt, flipRow, map_set, dot_neg_left]
  rfl

lemma absList_flipRow (C : List (List ℚ)) (col : List ℚ) (j : Nat) (hj : j < C.length) :
    (activationAt (flipRow j C) col).map (fun v => |v|) =
      (activationAt C col).map (fun v => |v|) := by
  rw [activationAt_flipRow, map_set, abs_neg]
  have hv : (activationAt C col).getD j 0 = dot (C.getD j []) col :=
    getD_map_of_lt _ 0 [] C j hj
  rw [← hv, ← getD_map_abs]
  exact set_getD_self _ j 0 (by simpa [activationAt] using hj)

lemma argmaxAbs_congr_absmap {xs ys : List ℚ}
    (h : xs.map (fun v => |v|) = ys.map (fun v => |v|)) : argmaxAbs xs = argmaxAbs ys := by
  rw [argmaxAbs, argmaxAbs, maxAbs, maxAbs, h]

lemma seg_flipRow (dataT C : List (List ℚ)) (gfp : List ℚ) (j : Nat) (hj : j < C.length) :
    (runsegmentation dataT (flipRow j C) gfp).segmentation =
      (runsegmentation dataT C gfp).segmentation := by
  simp only [runsegmentation, List.map_map]
  rw [show argmaxAbs ∘ activationAt (flipRow j C) = argmaxAbs ∘ activationAt C from
    funext fun col => argmaxAbs_congr_absmap (absList_flipRow C col j hj)]

lemma gevCalc_flipRow (dataT C : List (List ℚ)) (seg : List Nat) (gfp : List ℚ) (j : Nat)
    (hj : j < C.length) :
    gevCalc dataT (flipRow j C) seg gfp = gevCalc dataT C seg gfp := by
  have hpoint : ∀ (col : List ℚ) (lab : Nat),
      corrSq col ((flipRow j C).getD lab []) = corrSq col (C.getD lab []) := by
    intro col lab
    by_cases hl : lab = j
    · subst hl
      rw [flipRow, getD_set_self _ _ _ _ hj, corrSq_neg_right]
    · rw [flipRow, getD_set_ne _ _ _ _ _ hl]
  simp only [gevCalc, hpoint]

lemma pol_flipRow (dataT C : List (List ℚ)) (gfp : List ℚ) (j : Nat) (hj : j < C.length)
    (t : Nat) (ht : t < dataT.length) :
    (runsegmentation dataT (flipRow j C) gfp).polarity.getD t 0 =
      if (runsegmentation dataT C gfp).segmentation.getD t 0 = j
      then -((runsegmentation dataT C gfp).polarity.getD t 0)
      else (runsegmentation dataT C gfp).polarity.getD t 0 := by
  rw [pol_getD _ _ _ _ ht, pol_getD _ _ _ _ ht, seg_getD _ _ _ _ ht]
  have harg : argmaxAbs (activationAt (flipRow j C) (dataT.getD t [])) =
      argmaxAbs (activationAt C (dataT.getD t [])) :=
    argmaxAbs_congr_absmap (absList_flipRow C (dataT.getD t []) j hj)
  rw [harg, activationAt_flipRow]
  by_cases hl : argmaxAbs (activationAt C (dataT.getD t [])) = j
  · rw [if_pos hl, hl]
    rw [getD_set_self _ _ _ _ (by simpa [activationAt] using hj)]
    have hv : (activationAt C (dataT.getD t [])).getD j 0 = dot (C.getD j []) (dataT.getD t []) :=
      getD_map_of_lt _ 0 [] C j hj
    rw [hv, npsign_neg]
  · rw [if_neg hl, getD_set_ne _ _ _ _ _ hl]

/-- Claim C9: flipping the sign of one centroid row leaves the label sequence
and the computed GEV unchanged, and negates exactly the polarity entries of
the timepoints assigned to that row. -/
theorem C9_single_row_sign_flip (dataT C : List (List ℚ)) (gfp : List ℚ) (j : Nat)
    (hj : j < C.length) :
    (runsegmentation dataT (flipRow j C) gfp).segmentation =
      (runsegmentation dataT C gfp).segmentation ∧
    (runsegmentation dataT (flipRow j C) gfp).gev = (runsegmentation dataT C gfp).gev ∧
    ∀ t, t < dataT.length →
      (runsegmentation dataT (flipRow j C) gfp).polarity.getD t 0 =
        if (runsegmentation dataT C gfp).segmentation.getD t 0 = j
        then -((runsegmentation dataT C gfp).polarity.getD t 0)
        else (runsegmentation dataT C gfp).polarity.getD t 0 := by
  refine ⟨seg_flipRow dataT C gfp j hj, ?_, fun t ht => pol_flipRow dataT C gfp j hj t ht⟩
  have h1 : (runsegmentation dataT (flipRow j C) gfp).gev =
      gevCalc dataT (flipRow j C) ((runsegmentation dataT (flipRow j C) gfp).segmentation) gfp := rfl
  rw [h1, seg_flipRow dataT C gfp j hj, gevCalc_flipRow dataT C _ gfp j hj]
  rfl

/-- Witness for C9 at a concrete input: two one-channel centroids, one
timepoint, flipping row 0. -/
theorem C9_witness :
    (runsegmentation [[3]] (flipRow 0 [[1], [2]]) [1]).segmentation =
      (runsegmentation [[3]] [[1], [2]] [1]).segmentation ∧
    (runsegmentation [[3]] (flipRow 0 [[1], [2]]) [1]).gev =
      (runsegmentation [[3]] [[1], [2]] [1]).gev ∧
    ∀ t, t < ([[3]] : List (List ℚ)).length →
      (runsegmentation [[3]] (flipRow 0 [[1], [2]]) [1]).polarity.getD t 0 =
        if (runsegmentation [[3]] [[1], [2]] [1]).segmentation.getD t 0 = 0
        then -((runsegmentation [[3]] [[1], [2]] [1]).polarity.getD t 0)
        else (runsegmentation [[3]] [[1], [2]] [1]).polarity.getD t 0 :=
  C9_single_row_sign_flip [[3]] [[1], [2]] [1] 0 (by decide)

end Microstates

namespace Microstates

/-! ### Best-Run Selector and Segment Orchestrator -/

/-- Python exceptions crossing this module's boundary (spec §7 taxonomy). -/
inductive Err where
  | invalidArgument
  | unknownMethod
  | convergenceFailure
  deriving Repr, DecidableEq

/-- The running best of the selector loop: the variables
`gev, microstates, segmentation, polarity, info` of `microstates_segment`.
They start as `0, None, None, None, None` (lines 142-146). -/
structure RunBest where
  gev : ℚ
  microstates : Option (List (List ℚ))
  segmentation : Option (List Nat)
  polarity : Option (List ℚ)
  info : Option (List (List ℚ))
  deriving Repr, DecidableEq

/-- The placeholders the loop starts from: `gev = 0`, everything else `None`. -/
def initBest : RunBest :=
  { gev := 0, microstates := none, segmentation := none, polarity := none, info := none }

/-- The Run Record a successful run with normalized centroids `ms` produces.
The clusterer's `current_info` is modelled by its only consumed content,
the normalized centroid set. -/
def runRecord (dataT : List (List ℚ)) (gfp : List ℚ) (ms : List (List ℚ)) : RunBest :=
  { gev := (runsegmentation dataT ms gfp).gev,
    microstates := some ms,
    segmentation := some (runsegmentation dataT ms gfp).segmentation,
    polarity := some (runsegmentation dataT ms gfp).polarity,
    info := some ms }

/-- The `for run in range(n_runs)` loop of `microstates_segment` (lines
149-166) over the drawn sub-seeds.  `clusterFn` stands for
`cluster(data[:, indices].T, method="kmod", ..., random_state=seed)`
returning the normalized centroid set, or raising; a raised exception
propagates immediately (the loop body has no handler).  The running best is
replaced only on strictly greater GEV (`if g > gev`). -/
def selectorLoop (dataT : List (List ℚ)) (gfp : List ℚ)
    (clusterFn : Nat → Except Err (List (List ℚ))) :
    List Nat → RunBest → Except Err RunBest
  | [], best => .ok best
  | s :: rest, best =>
    match clusterFn s with
    | .error e => .error e
    | .ok ms =>
      selectorLoop dataT gfp clusterFn rest
        (if best.gev < (runsegmentation dataT ms gfp).gev
         then runRecord dataT gfp ms else best)

/-- The full-signal GEV a (successful) run at sub-seed `s` attains; junk
value 0 for a failing run. -/
def runGev (dataT : List (List ℚ)) (gfp : List ℚ)
    (clusterFn : Nat → Except Err (List (List ℚ))) (s : Nat) : ℚ :=
  match clusterFn s with
  | .ok ms => (runsegmentation dataT ms gfp).gev
  | .error _ => 0

/-- `np.random.RandomState(seed).choice(range(nRuns * 1000), nRuns, replace=False)`
(line 139).  The Mersenne-Twister stream is abstracted as `perm seed n`, a
permutation of `range n`: legacy numpy `choice` with `replace=False` draws
`permutation(pop_size)[:size]`.  Validation follows numpy `RandomState.choice`:
an empty population with a nonzero sample count raises `ValueError`
("a must be non-empty unless no samples are taken"), as does a sample
larger than the population; a zero-size sample from an empty population is
allowed and yields the empty draw. -/
def npChoice (perm : Nat → Nat → List Nat) (seed : Nat) (nRuns : Int) :
    Except Err (List Nat) :=
  let popSize : Nat := (nRuns * 1000).toNat
  if popSize = 0 ∧ nRuns ≠ 0 then .error .invalidArgument
  else if (popSize : Int) < nRuns then .error .invalidArgument
  else .ok ((perm seed popSize).take nRuns.toNat)

/-- The modified-k-means branch of `microstates_segment` up to the end of the
run loop: draw the sub-seeds, then fold the runs from the initial
placeholders. -/
def bestRunSelector (perm : Nat → Nat → List Nat) (seed : Nat) (nRuns : Int)
    (dataT : List (List ℚ)) (gfp : List ℚ)
    (clusterFn : Nat → Except Err (List (List ℚ))) : Except Err RunBest :=
  match npChoice perm seed nRuns with
  | .error e => .error e
  | .ok seeds => selectorLoop dataT gfp clusterFn seeds initBest

/-- `data[:, indices]` in time-major form: the training subset of timepoints. -/
def trainSubset (dataT : List (List ℚ)) (indices : List Nat) : List (List ℚ) :=
  indices.map (fun i => dataT.getD i [])

/-- The method names dispatched to the modified-k-means branch (line 132). -/
def kmodFamily : List String := ["kmods", "kmod", "kmeans modified", "modified kmeans"]

/-- Modelled from the spec: the non-kmod method names the external Clusterer
(`cluster`, outside these sources) accepts; §4.3 and the docstring list
kmeans, pca, ica and aahc. -/
def supportedMethods : List String := ["kmeans", "pca", "ica", "aahc"]

/-- The output dict of `microstates_segment` (its `GFP` and MNE-info entries
carry pass-through data; the label-reordering output of the external
`microstates_classify` collaborator fills `Microstates` and `Sequence`). -/
structure ResultRecord where
  Microstates : Option (List (List ℚ))
  Sequence : Option (List Nat)
  GEV : ℚ
  GFP : List ℚ
  Polarity : Option (List ℚ)
  InfoAlgorithm : Option (List (List ℚ))
  deriving Repr, DecidableEq

/-- The modified-k-means branch of `microstates_segment` including result
assembly: the selector's outcome is relabeled by the external
`microstates_classify` (an opaque total `classifyFn`) and packed. -/
def kmodBranch (perm : Nat → Nat → List Nat)
    (clusterKmod : List (List ℚ) → Nat → Except Err (List (List ℚ)))
    (classifyFn : Option (List Nat) → Option (List (List ℚ)) →
      Option (List Nat) × Option (List (List ℚ)))
    (dataT : List (List ℚ)) (indices : List Nat) (gfp : List ℚ)
    (nRuns : Int) (seed : Nat) : Except Err ResultRecord :=
  match bestRunSelector perm seed nRuns dataT gfp (clusterKmod (trainSubset dataT indices)) with
  | .error e => .error e
  | .ok best =>
    .ok { Microstates := (classifyFn best.segmentation best.microstates).2,
          Sequence := (classifyFn best.segmentation best.microstates).1,
          GEV := best.gev, GFP := gfp, Polarity := best.polarity,
          InfoAlgorithm := best.info }

/-- The else-branch of `microstates_segment`: one direct call of the external
Clusterer with the requested method, one run of segmentation, relabeling and
result assembly.  Modelled from the spec: the method-name validation lives in
the external `cluster`, which fails with UnknownMethod on an unsupported
name; `clusterOther` stands for its centroid output on a supported name. -/
def directBranch (clusterOther : String → List (List ℚ) → List (List ℚ))
    (classifyFn : Option (List Nat) → Option (List (List ℚ)) →
      Option (List Nat) × Option (List (List ℚ)))
    (dataT : List (List ℚ)) (indices : List Nat) (gfp : List ℚ)
    (method : String) : Except Err ResultRecord :=
  if method ∈ supportedMethods then
    .ok { Microstates := (classifyFn
            (some (runsegmentation dataT (clusterOther method (trainSubset dataT indices)) gfp).segmentation)
            (some (clusterOther method (trainSubset dataT indices)))).2,
          Sequence := (classifyFn
            (some (runsegmentation dataT (clusterOther method (trainSubset dataT indices)) gfp).segmentation)
            (some (clusterOther method (trainSubset dataT indices)))).1,
          GEV := (runsegmentation dataT (clusterOther method (trainSubset dataT indices)) gfp).gev,
          GFP := gfp,
          Polarity := some (runsegmentation dataT (clusterOther method (trainSubset dataT indices)) gfp).polarity,
          InfoAlgorithm := some (clusterOther method (trainSubset dataT indices)) }
  else .error .unknownMethod

/-- `microstates_segment` after the external cleaning step: its inputs are the
cleaned full data, training indices and GFP weights the cleaning collaborator
returned.  Branches on the method name (line 132). -/
def microstates_segment (perm : Nat → Nat → List Nat)
    (clusterKmod : List (List ℚ) → Nat → Except Err (List (List ℚ)))
    (clusterOther : String → List (List ℚ) → List (List ℚ))
    (classifyFn : Option (List Nat) → Option (List (List ℚ)) →
      Option (List Nat) × Option (List (List ℚ)))
    (dataT : List (List ℚ)) (indices : List Nat) (gfp : List ℚ)
    (method : String) (nRuns : Int) (seed : Nat) : Except Err ResultRecord :=
  if method ∈ kmodFamily then
    kmodBranch perm clusterKmod classifyFn dataT indices gfp nRuns seed
  else
    directBranch clusterOther classifyFn dataT indices gfp method

end Microstates

namespace Microstates

/-! ### Stepping lemmas for the run loop -/

lemma selectorLoop_cons_ok (dataT : List (List ℚ)) (gfp : List ℚ)
    (clusterFn : Nat → Except Err (List (List ℚ))) (s : Nat) (rest : List Nat)
    (b : RunBest) (ms : List (List ℚ)) (hms : clusterFn s = .ok ms) :
    selectorLoop dataT gfp clusterFn (s :: rest) b =
      selectorLoop dataT gfp clusterFn rest
        (if b.gev < (runsegmentation dataT ms gfp).gev
         then runRecord dataT gfp ms else b) := by
  simp only [selectorLoop, hms]

lemma selectorLoop_cons_error (dataT : List (List ℚ)) (gfp : List ℚ)
    (clusterFn : Nat → Except Err (List (List ℚ))) (s : Nat) (rest : List Nat)
    (b : RunBest) (e : Err) (he : clusterFn s = .error e) :
    selectorLoop dataT gfp clusterFn (s :: rest) b = .error e := by
  simp only [selectorLoop, he]

lemma runGev_ok (dataT : List (List ℚ)) (gfp : List ℚ)
    (clusterFn : Nat → Except Err (List (List ℚ))) (s : Nat) (ms : List (List ℚ))
    (hms : clusterFn s = .ok ms) :
    runGev dataT gfp clusterFn s = (runsegmentation dataT ms gfp).gev := by
  simp only [runGev, hms]

/-- Invariant of the run loop: starting from state `b` over all-successful
runs, the loop succeeds; the final GEV dominates `b.gev` and every run's GEV;
and the final state is either `b` untouched or the Run Record of the first
run attaining the final (strictly improved) GEV. -/
lemma selectorLoop_invariant (dataT : List (List ℚ)) (gfp : List ℚ)
    (clusterFn : Nat → Except Err (List (List ℚ))) :
    ∀ (seeds : List Nat) (b : RunBest),
      (∀ s ∈ seeds, ∃ ms, clusterFn s = .ok ms) →
      ∃ best, selectorLoop dataT gfp clusterFn seeds b = .ok best ∧
        b.gev ≤ best.gev ∧
        (∀ s ∈ seeds, runGev dataT gfp clusterFn s ≤ best.gev) ∧
        (best = b ∨ ∃ i, i < seeds.length ∧
          (∃ ms, clusterFn (seeds.getD i 0) = .ok ms ∧ best = runRecord dataT gfp ms) ∧
          best.gev = runGev dataT gfp clusterFn (seeds.getD i 0) ∧
          b.gev < best.gev ∧
          ∀ k, k < i → runGev dataT gfp clusterFn (seeds.getD k 0) < best.gev) := by
  intro seeds
  induction seeds with
  | nil =>
    intro b _
    exact ⟨b, rfl, le_refl _, fun s hs => absurd hs (List.not_mem_nil s), Or.inl rfl⟩
  | cons s rest ih =>
    intro b h
    obtain ⟨ms, hms⟩ := h s (List.mem_cons_self s rest)
    have hrest : ∀ s' ∈ rest, ∃ ms', clusterFn s' = .ok ms' :=
      fun s' hs' => h s' (List.mem_cons_of_mem s hs')
    have hg := runGev_ok dataT gfp clusterFn s ms hms
    by_cases hlt : b.gev < (runsegmentation dataT ms gfp).gev
    · obtain ⟨best, hloop, hble, hall, hdisj⟩ := ih (runRecord dataT gfp ms) hrest
      refine ⟨best, ?_, ?_, ?_, ?_⟩
      · rw [selectorLoop_cons_ok dataT gfp clusterFn s rest b ms hms, if_pos hlt]
        exact hloop
      · exact le_trans (le_of_lt hlt) hble
      · intro s' hs'
        rcases List.mem_cons.1 hs' with h' | h'
        · subst h'
          rw [hg]
          exact hble
        · exact hall s' h'
      · right
        rcases hdisj with rfl | ⟨i, hi, hrec, hgev, hblt, hfirst⟩
        · refine ⟨0, Nat.succ_pos _, ⟨ms, hms, rfl⟩, ?_, hlt, ?_⟩
          · show (runRecord dataT gfp ms).gev = runGev dataT gfp clusterFn s
            rw [hg]
            rfl
          · intro k hk
            exact absurd hk (Nat.not_lt_zero k)
        · refine ⟨i + 1, Nat.succ_lt_succ hi, hrec, hgev, lt_trans hlt hblt, ?_⟩
          intro k hk
          cases k with
          | zero =>
            show runGev dataT gfp clusterFn s < best.gev
            rw [hg]
            exact hblt
          | succ k => exact hfirst k (Nat.lt_of_succ_lt_succ hk)
    · obtain ⟨best, hloop, hble, hall, hdisj⟩ := ih b hrest
      refine ⟨best, ?_, hble, ?_, ?_⟩
      · rw [selectorLoop_cons_ok dataT gfp clusterFn s rest b ms hms, if_neg hlt]
        exact hloop
      · intro s' hs'
        rcases List.mem_cons.1 hs' with h' | h'
        · subst h'
          rw [hg]
          exact le_trans (le_of_not_lt hlt) hble
        · exact hall s' h'
      · rcases hdisj with rfl | ⟨i, hi, hrec, hgev, hblt, hfirst⟩
        · exact Or.inl rfl
        · right
          refine ⟨i + 1, Nat.succ_lt_succ hi, hrec, hgev, hblt, ?_⟩
          intro k hk
          cases k with
          | zero =>
            show runGev dataT gfp clusterFn s < best.gev
            rw [hg]
            exact lt_of_le_of_lt (le_of_not_lt hlt) hblt
          | succ k => exact hfirst k (Nat.lt_of_succ_lt_succ hk)

/-- Claim C3: over a selector invocation whose runs all succeed, the returned
GEV dominates every individual run's GEV and the initial 0; the best is
replaced only on strictly greater GEV, so the returned record is either the
untouched initial state or the record of the earliest run attaining the
returned GEV (ties keep the earlier run). -/
theorem C3_best_gev_monotone (dataT : List (List ℚ)) (gfp : List ℚ)
    (clusterFn : Nat → Except Err (List (List ℚ))) (seeds : List Nat)
    (h : ∀ s ∈ seeds, ∃ ms, clusterFn s = .ok ms) :
    ∃ best, selectorLoop dataT gfp clusterFn seeds initBest = .ok best ∧
      0 ≤ best.gev ∧
      (∀ s ∈ seeds, runGev dataT gfp clusterFn s ≤ best.gev) ∧
      (best = initBest ∨ ∃ i, i < seeds.length ∧
        (∃ ms, clusterFn (seeds.getD i 0) = .ok ms ∧ best = runRecord dataT gfp ms) ∧
        best.gev = runGev dataT gfp clusterFn (seeds.getD i 0) ∧
        0 < best.gev ∧
        ∀ k, k < i → runGev dataT gfp clusterFn (seeds.getD k 0) < best.gev) :=
  selectorLoop_invariant dataT gfp clusterFn seeds initBest h

/-- Witness for C3 at a concrete input: one successful run. -/
theorem C3_witness :
    ∃ best, selectorLoop [[1]] [1] (fun _ => Except.ok [[1]]) [0] initBest = .ok best ∧
      0 ≤ best.gev ∧
      (∀ s ∈ [0], runGev [[1]] [1] (fun _ => Except.ok [[1]]) s ≤ best.gev) ∧
      (best = initBest ∨ ∃ i, i < [0].length ∧
        (∃ ms, (Except.ok [[1]] : Except Err (List (List ℚ))) = Except.ok ms ∧
          best = runRecord [[1]] [1] ms) ∧
        best.gev = runGev [[1]] [1] (fun _ => Except.ok [[1]]) ([0].getD i 0) ∧
        0 < best.gev ∧
        ∀ k, k < i → runGev [[1]] [1] (fun _ => Except.ok [[1]]) ([0].getD k 0) < best.gev) :=
  C3_best_gev_monotone [[1]] [1] (fun _ => Except.ok [[1]]) [0] (fun _ _ => ⟨[[1]], rfl⟩)

/-- Claim C2 fails on the code: the run loop has no exception handler, so a
single failing run aborts the whole selection even though a later run would
succeed.  Here the run at sub-seed 0 fails while the run at sub-seed 1 would
succeed (first conjunct), yet the loop propagates the first failure instead
of using the successful run's result. -/
theorem C2_counterexample :
    (fun s => if s = 0 then (Except.error Err.convergenceFailure : Except Err (List (List ℚ)))
              else Except.ok [[1]]) 1 = Except.ok [[1]] ∧
    selectorLoop [[1]] [1]
      (fun s => if s = 0 then Except.error Err.convergenceFailure else Except.ok [[1]])
      [0, 1] initBest = Except.error Err.convergenceFailure :=
  ⟨rfl, rfl⟩

lemma selectorLoop_first_error (dataT : List (List ℚ)) (gfp : List ℚ)
    (clusterFn : Nat → Except Err (List (List ℚ))) :
    ∀ (seeds : List Nat) (b : RunBest) (i : Nat) (e : Err),
      i < seeds.length →
      clusterFn (seeds.getD i 0) = .error e →
      (∀ k, k < i → ∃ ms, clusterFn (seeds.getD k 0) = .ok ms) →
      selectorLoop dataT gfp clusterFn seeds b = .error e := by
  intro seeds
  induction seeds with
  | nil => intro b i e hi _ _; exact absurd hi (Nat.not_lt_zero i)
  | cons s rest ih =>
    intro b i e hi herr hok
    cases i with
    | zero => exact selectorLoop_cons_error dataT gfp clusterFn s rest b e herr
    | succ i =>
      obtain ⟨ms, hms⟩ := hok 0 (Nat.succ_pos i)
      rw [selectorLoop_cons_ok dataT gfp clusterFn s rest b ms hms]
      exact ih _ i e (Nat.lt_of_succ_lt_succ hi) herr
        (fun k hk => hok (k + 1) (Nat.succ_lt_succ hk))

/-- Claim C2 amended: a convergence failure of any single run is fatal to the
whole selection.  The loop propagates the error of the first failing run
immediately (later runs are never attempted), regardless of whether other
runs would succeed. -/
theorem C2_amended_first_failure_fatal (dataT : List (List ℚ)) (gfp : List ℚ)
    (clusterFn : Nat → Except Err (List (List ℚ))) (seeds : List Nat) (i : Nat) (e : Err)
    (hi : i < seeds.length)
    (herr : clusterFn (seeds.getD i 0) = .error e)
    (hok : ∀ k, k < i → ∃ ms, clusterFn (seeds.getD k 0) = .ok ms) :
    selectorLoop dataT gfp clusterFn seeds initBest = .error e :=
  selectorLoop_first_error dataT gfp clusterFn seeds initBest i e hi herr hok

/-- Witness for the amended C2 at a concrete input: the only run fails. -/
theorem C2_witness :
    selectorLoop [[1]] [1] (fun _ => Except.error Err.convergenceFailure) [5] initBest =
      Except.error Err.convergenceFailure :=
  C2_amended_first_failure_fatal [[1]] [1] (fun _ => Except.error Err.convergenceFailure)
    [5] 0 Err.convergenceFailure (by decide) rfl (fun k hk => absurd hk (Nat.not_lt_zero k))

end Microstates

namespace Microstates

lemma selectorLoop_no_update (dataT : List (List ℚ)) (gfp : List ℚ)
    (clusterFn : Nat → Except Err (List (List ℚ))) :
    ∀ (seeds : List Nat) (b : RunBest),
      (∀ s ∈ seeds, ∃ ms, clusterFn s = .ok ms) →
      (∀ s ∈ seeds, runGev dataT gfp clusterFn s ≤ b.gev) →
      selectorLoop dataT gfp clusterFn seeds b = .ok b := by
  intro seeds
  induction seeds with
  | nil => intro b _ _; rfl
  | cons s rest ih =>
    intro b h hle
    obtain ⟨ms, hms⟩ := h s (List.mem_cons_self s rest)
    rw [selectorLoop_cons_ok dataT gfp clusterFn s rest b ms hms]
    have hg : (runsegmentation dataT ms gfp).gev ≤ b.gev := by
      have h2 := hle s (List.mem_cons_self s rest)
      rw [runGev_ok dataT gfp clusterFn s ms hms] at h2
      exact h2
    rw [if_neg (not_lt.mpr hg)]
    exact ih b (fun s' hs' => h s' (List.mem_cons_of_mem s hs'))
      (fun s' hs' => hle s' (List.mem_cons_of_mem s hs'))

/-- Claim C10: in the modified-k-means branch, when the sub-seed draw and
every run succeed but no run attains a GEV strictly above 0, the call
completes without raising in this module and hands on its initial
placeholders: the relabeling step receives None for both the sequence and the
microstates, and the Result Record carries GEV exactly 0, Polarity None and
algorithm info None. -/
theorem C10_no_winning_run_keeps_placeholders
    (perm : Nat → Nat → List Nat)
    (clusterKmod : List (List ℚ) → Nat → Except Err (List (List ℚ)))
    (clusterOther : String → List (List ℚ) → List (List ℚ))
    (classifyFn : Option (List Nat) → Option (List (List ℚ)) →
      Option (List Nat) × Option (List (List ℚ)))
    (dataT : List (List ℚ)) (indices : List Nat) (gfp : List ℚ)
    (method : String) (nRuns : Int) (seed : Nat) (seeds : List Nat)
    (hm : method ∈ kmodFamily)
    (hch : npChoice perm seed nRuns = .ok seeds)
    (hok : ∀ s ∈ seeds, ∃ ms, clusterKmod (trainSubset dataT indices) s = .ok ms)
    (hle : ∀ s ∈ seeds, runGev dataT gfp (clusterKmod (trainSubset dataT indices)) s ≤ 0) :
    microstates_segment perm clusterKmod clusterOther classifyFn dataT indices gfp
        method nRuns seed =
      .ok { Microstates := (classifyFn none none).2, Sequence := (classifyFn none none).1,
            GEV := 0, GFP := gfp, Polarity := none, InfoAlgorithm := none } := by
  have hloop : selectorLoop dataT gfp (clusterKmod (trainSubset dataT indices)) seeds initBest =
      .ok initBest :=
    selectorLoop_no_update dataT gfp _ seeds initBest hok hle
  simp only [microstates_segment, if_pos hm, kmodBranch, bestRunSelector, hch]
  rw [hloop]
  rfl

/-- Witness for C10 at a concrete input: an all-zero one-channel signal, whose
single run attains GEV 0. -/
theorem C10_witness :
    microstates_segment (fun _ _ => [0]) (fun _ _ => Except.ok [[1]]) (fun _ _ => [[1]])
      (fun s m => (s, m)) [[0]] [0] [1] "kmod" 1 0 =
      .ok { Microstates := none, Sequence := none, GEV := 0, GFP := [1],
            Polarity := none, InfoAlgorithm := none } :=
  C10_no_winning_run_keeps_placeholders (fun _ _ => [0]) (fun _ _ => Except.ok [[1]])
    (fun _ _ => [[1]]) (fun s m => (s, m)) [[0]] [0] [1] "kmod" 1 0 [0]
    (List.Mem.tail _ (List.Mem.head _)) rfl (fun _ _ => ⟨[[1]], rfl⟩)
    (by
      intro s hs
      have hs0 : s = 0 := List.mem_singleton.1 hs
      subst hs0
      have hr := runGev_ok [[0]] [1] ((fun _ _ => Except.ok [[1]]) (trainSubset [[0]] [0])) 0 [[1]] rfl
      rw [hr]
      simp [runsegmentation, gevCalc, corrSq, covC, centered, mean, dot, activationAt])

/-- Claim C8 fails on the code: at `n_runs = 0` the numpy draw
`choice(range(0), 0, replace=False)` succeeds with an empty draw, the loop
body never executes, and the selector completes with the initial
placeholders instead of failing with InvalidArgument. -/
theorem C8_counterexample :
    bestRunSelector (fun _ n => List.range n) 0 0 [[1]] [1] (fun _ => Except.ok [[1]]) ≠
        Except.error Err.invalidArgument ∧
    bestRunSelector (fun _ n => List.range n) 0 0 [[1]] [1] (fun _ => Except.ok [[1]]) =
        Except.ok initBest := by
  constructor
  · intro h
    have h2 : Except.ok initBest = (Except.error Err.invalidArgument : Except Err RunBest) := by
      rw [← h]
      rfl
    exact Except.noConfusion h2
  · rfl

/-- Claim C8 amended: the Best-Run Selector fails with InvalidArgument
whenever `n_runs < 0` (the empty seed population with a nonzero draw count
makes numpy raise); at `n_runs = 0` it performs no runs and returns the
initial placeholders without error. -/
theorem C8_amended_negative_runs_fail (perm : Nat → Nat → List Nat) (seed : Nat)
    (nRuns : Int) (h : nRuns < 0) (dataT : List (List ℚ)) (gfp : List ℚ)
    (clusterFn : Nat → Except Err (List (List ℚ))) :
    bestRunSelector perm seed nRuns dataT gfp clusterFn = Except.error Err.invalidArgument := by
  have hpop : (nRuns * 1000).toNat = 0 := by
    apply Int.toNat_of_nonpos
    have : nRuns * 1000 < 0 := by
      apply mul_neg_of_neg_of_pos h
      norm_num
    exact le_of_lt this
  have hne : nRuns ≠ 0 := ne_of_lt h
  simp only [bestRunSelector, npChoice, hpop]
  simp [hne]

/-- Witness for the amended C8 at a concrete input: `n_runs = -1`. -/
theorem C8_witness :
    bestRunSelector (fun _ n => List.range n) 0 (-1) [[1]] [1] (fun _ => Except.ok [[1]]) =
      Except.error Err.invalidArgument :=
  C8_amended_negative_runs_fail (fun _ n => List.range n) 0 (-1) (by decide) [[1]] [1]
    (fun _ => Except.ok [[1]])

end Microstates

namespace Microstates

/-- Claim C4: with an explicit base seed the sub-seed derivation is a pure
function of the seed: the draw succeeds and yields exactly `n_runs` distinct
integers from the range `0 .. 1000·n_runs - 1`, and two invocations of the
Best-Run Selector on the same seed and inputs are equal.  The
Mersenne-Twister stream behind `RandomState(seed)` is abstracted as any
seed-indexed permutation `perm` of the population. -/
theorem C4_seed_determinism (perm : Nat → Nat → List Nat)
    (hperm : ∀ s n, List.Perm (perm s n) (List.range n))
    (seed : Nat) (nRuns : Int) (hn : 0 < nRuns)
    (dataT : List (List ℚ)) (gfp : List ℚ)
    (clusterFn : Nat → Except Err (List (List ℚ))) :
    ∃ seeds, npChoice perm seed nRuns = .ok seeds ∧
      seeds.length = nRuns.toNat ∧
      seeds.Nodup ∧
      (∀ x ∈ seeds, x < (nRuns * 1000).toNat) ∧
      bestRunSelector perm seed nRuns dataT gfp clusterFn =
        bestRunSelector perm seed nRuns dataT gfp clusterFn := by
  have hmul : (0 : Int) < nRuns * 1000 := mul_pos hn (by norm_num)
  have hle : nRuns.toNat ≤ (nRuns * 1000).toNat := by omega
  have hchoice : npChoice perm seed nRuns =
      .ok ((perm seed (nRuns * 1000).toNat).take nRuns.toNat) := by
    simp only [npChoice]
    rw [if_neg (by omega), if_neg (by omega)]
  refine ⟨(perm seed (nRuns * 1000).toNat).take nRuns.toNat, hchoice, ?_, ?_, ?_, rfl⟩
  · rw [List.length_take, (hperm seed (nRuns * 1000).toNat).length_eq, List.length_range]
    exact Nat.min_eq_left hle
  · exact List.Nodup.sublist (List.take_sublist _ _)
      ((hperm seed (nRuns * 1000).toNat).nodup_iff.mpr (List.nodup_range _))
  · intro x hx
    have hx2 : x ∈ perm seed (nRuns * 1000).toNat := List.take_subset _ _ hx
    rw [(hperm seed (nRuns * 1000).toNat).mem_iff] at hx2
    exact List.mem_range.1 hx2

/-- Witness for C4 at a concrete input, with the identity permutation for the
abstract Mersenne-Twister stream. -/
theorem C4_witness :
    ∃ seeds, npChoice (fun _ n => List.range n) 0 1 = .ok seeds ∧
      seeds.length = (1 : Int).toNat ∧
      seeds.Nodup ∧
      (∀ x ∈ seeds, x < ((1 : Int) * 1000).toNat) ∧
      bestRunSelector (fun _ n => List.range n) 0 1 [[1]] [1] (fun _ => Except.ok [[1]]) =
        bestRunSelector (fun _ n => List.range n) 0 1 [[1]] [1] (fun _ => Except.ok [[1]]) :=
  C4_seed_determinism (fun _ n => List.range n) (fun _ n => List.Perm.refl _) 0 1 (by decide)
    [[1]] [1] (fun _ => Except.ok [[1]])

/-- Claim C7: the orchestrator's dispatch on the method name.  Names outside
both the kmod family and the supported set fail with UnknownMethod; exactly
the four kmod-family names go to the Best-Run Selector branch; any other
supported name goes to the single direct clustering branch. -/
theorem C7_method_dispatch (perm : Nat → Nat → List Nat)
    (clusterKmod : List (List ℚ) → Nat → Except Err (List (List ℚ)))
    (clusterOther : String → List (List ℚ) → List (List ℚ))
    (classifyFn : Option (List Nat) → Option (List (List ℚ)) →
      Option (List Nat) × Option (List (List ℚ)))
    (dataT : List (List ℚ)) (indices : List Nat) (gfp : List ℚ)
    (nRuns : Int) (seed : Nat) (method : String) :
    (method ∉ kmodFamily → method ∉ supportedMethods →
      microstates_segment perm clusterKmod clusterOther classifyFn dataT indices gfp
        method nRuns seed = .error .unknownMethod) ∧
    (method ∈ kmodFamily →
      microstates_segment perm clusterKmod clusterOther classifyFn dataT indices gfp
        method nRuns seed =
        kmodBranch perm clusterKmod classifyFn dataT indices gfp nRuns seed) ∧
    (method ∉ kmodFamily → method ∈ supportedMethods →
      microstates_segment perm clusterKmod clusterOther classifyFn dataT indices gfp
        method nRuns seed =
        directBranch clusterOther classifyFn dataT indices gfp method) := by
  refine ⟨?_, ?_, ?_⟩
  · intro h1 h2
    simp only [microstates_segment, if_neg h1, directBranch, if_neg h2]
  · intro h1
    simp only [microstates_segment, if_pos h1]
  · intro h1 _
    simp only [microstates_segment, if_neg h1]

/-- Witness for C7 at a concrete input: an unrecognized method name fails
with UnknownMethod. -/
theorem C7_witness :
    microstates_segment (fun _ n => List.range n) (fun _ _ => Except.ok [[1]])
      (fun _ _ => [[1]]) (fun s m => (s, m)) [[1]] [0] [1] "nonsense" 1 0 =
      .error .unknownMethod :=
  (C7_method_dispatch (fun _ n => List.range n) (fun _ _ => Except.ok [[1]])
      (fun _ _ => [[1]]) (fun s m => (s, m)) [[1]] [0] [1] 1 0 "nonsense").1
    (by decide) (by decide)

end Microstates

namespace Microstates

/-- Witness for the amended C6 at a concrete input: the polarity entry 1
produced for the positive one-channel signal column (3). -/
theorem C6_witness :
    (1 : ℚ) = 1 ∨ (1 : ℚ) = 0 ∨ (1 : ℚ) = -1 :=
  C6_amended_polarity_is_sign_value [[3]] [[1]] [1] 1 (by
    norm_num [runsegmentation, activationAt, dot, argmaxAbs, maxAbs, firstIdxEq, npsign])

end Microstates
